import Mathlib

/-!
Verification of the 8D-report assistant (`src/app.py`) against its
natural-language specification.  The Python source is shallowly embedded:
session-state handlers become pure functions on explicit state values,
the language-model capability becomes an explicit oracle argument, and
fallible operations return `Except`.
-/

/-! ### A model of Python/JSON values

`json.loads` produces nested dicts, lists, strings, numbers, booleans and
null.  Dicts are modelled as association lists keyed by `String`. -/

inductive PyVal where
  | str (s : String)
  | num (n : Int)
  | bool (b : Bool)
  | null
  | list (xs : List PyVal)
  | obj (fields : List (String × PyVal))

/-- Python `d.get(k, dflt)`: on a dict it returns the stored value or the
default; on any non-dict value the attribute access raises
`AttributeError` (as in `item.get("action", "N/A")` for a non-dict item,
`src/app.py` lines 174/178). -/
def pyGet : PyVal → String → PyVal → Except String PyVal
  | .obj fields, k, dflt => .ok ((List.lookup k fields).getD dflt)
  | _, _, _ => .error "AttributeError"

/-- Whether a dict value carries the given key. -/
def PyVal.hasKey : PyVal → String → Bool
  | .obj fields, k => (List.lookup k fields).isSome
  | _, _ => false

/-- Python iteration `for item in v`: lists yield their elements, strings
yield their characters (as one-character strings), dicts yield their keys,
anything else raises `TypeError`. -/
def pyIter : PyVal → Except String (List PyVal)
  | .list xs => .ok xs
  | .str s => .ok (s.data.map (fun c => .str (String.mk [c])))
  | .obj fields => .ok (fields.map (fun kv => .str kv.1))
  | _ => .error "TypeError"

/-! ### Session state of the audit mode

`st.session_state.audit_result` (`src/app.py` line 328). -/

structure AuditResult where
  extracted_data : Option PyVal
  evaluation_markdown : Option String
  translated_data : Option String
  translated_eval : Option String

/-- The audit-run handler, `src/app.py` lines 739-844.  Both external
calls (extraction + `json.loads`, and evaluation) run inside one `try`;
the four session-state assignments at lines 838-841 are the last
statements of the `try`, so any failure leaves the state untouched, and a
full success stores the new pair and clears both translated fields.
`extraction` is the outcome of the extraction request combined with
`json.loads`; `evaluation` is the outcome of the evaluation request. -/
def run_audit (st : AuditResult) (extraction : Except String PyVal)
    (evaluation : Except String String) : AuditResult :=
  match extraction with
  | .error _ => st
  | .ok ed =>
    match evaluation with
    | .error _ => st
    | .ok ev =>
      { extracted_data := some ed
        evaluation_markdown := some ev
        translated_data := none
        translated_eval := none }

/-! ### The translation helper, `src/app.py` lines 74-113

The external chat-completion capability is an explicit oracle
`llm : String → Except String String` (prompt to response, or an
exception).  The returned `Nat` counts how many requests were issued. -/

/-- The translation prompt template (f-string at lines 92-102). -/
def mkTranslatePrompt (lang text_data : String) : String :=
  "你是一位专业的质量管理翻译员。请将以下 8D 报告中的核心内容准确地翻译成 " ++ lang ++
  "。请保留原有的Markdown、列表和分段格式。\n**请务必保留文本中的分隔符 `***AI_EVAL_SEP***`，不要对其进行翻译或移除。**\n仅返回翻译后的文本，不要添加任何解释或额外的Markdown标记。\n内容:\n" ++ text_data

/-- `translate_report(text_data, target_lang, api_key)`.  Missing key
returns an error before anything else; the native-language shortcut at
line 83-84 returns the input verbatim before any request is issued;
otherwise one request is made and an exception is reported as an error
string (line 113). -/
def translate_report (text_data target_lang api_key : String)
    (llm : String → Except String String) :
    (Option String × Option String) × Nat :=
  if api_key = "" then ((none, some "API Key 缺失"), 0)
  else if target_lang = "中文 (默认)" then ((some text_data, none), 0)
  else
    let lang :=
      if target_lang = "English (英文)" then "English"
      else if target_lang = "日本語 (日文)" then "Japanese"
      else target_lang
    match llm (mkTranslatePrompt lang text_data) with
    | .ok content => ((some content, none), 1)
    | .error e => ((none, some ("翻译调用出错: " ++ e)), 1)

/-! ### Display-path reads of the extracted report

The original-Chinese rendering (`src/app.py` lines 929-992) reads every
scalar field with `extracted_data.get(key, "N/A")` and every action list
with `extracted_data.get(key, [])`. -/

/-- A scalar read of the display path, e.g. line 932. -/
def display_scalar (d : PyVal) (key : String) : Except String PyVal :=
  pyGet d key (.str "N/A")

/-- A list read of the display path, lines 967 and 979. -/
def display_list (d : PyVal) (key : String) : Except String PyVal :=
  pyGet d key (.list [])

/-! ## Claims C1, C2, C7 -/

/-- Claim C2: the audit run sets `extracted_data` and
`evaluation_markdown` atomically — a success stores both and resets both
translated fields to absent, and a failure anywhere in extraction or
evaluation leaves the whole state exactly as it was. -/
theorem claim_C2_theorem (st : AuditResult) (ex : Except String PyVal)
    (ev : Except String String) :
    (∀ d e, ex = .ok d → ev = .ok e →
      run_audit st ex ev =
        { extracted_data := some d, evaluation_markdown := some e,
          translated_data := none, translated_eval := none }) ∧
    (∀ e, ex = .error e → run_audit st ex ev = st) ∧
    (∀ e, ev = .error e → run_audit st ex ev = st) := by
  refine ⟨?_, ?_, ?_⟩
  · intro d e hd he
    subst hd; subst he
    rfl
  · intro e he
    subst he
    rfl
  · intro e he
    subst he
    cases ex <;> rfl

theorem claim_C2_witness :
    run_audit ⟨none, none, some "stale", some "stale"⟩
        (.ok (.obj [("D1_TeamLeader", PyVal.str "Alice")])) (.ok "eval md") =
      { extracted_data := some (.obj [("D1_TeamLeader", PyVal.str "Alice")]),
        evaluation_markdown := some "eval md",
        translated_data := none, translated_eval := none } :=
  (claim_C2_theorem ⟨none, none, some "stale", some "stale"⟩ _ _).1
    (.obj [("D1_TeamLeader", PyVal.str "Alice")]) "eval md" rfl rfl

/-- Claim C1, counterexample: the extraction step (`src/app.py` line 790)
stores `json.loads`'s result verbatim.  On the parseable response `{}` the
stored `ExtractedReport` is the empty dict, so the schema key
`D1_TeamLeader` is missing from the result handed to rendering — the
claim that no key of the schema is ever missing is false. -/
theorem claim_C1_counterexample :
    (run_audit ⟨none, none, none, none⟩ (.ok (.obj [])) (.ok "eval")).extracted_data
        = some (.obj []) ∧
      PyVal.hasKey (.obj []) "D1_TeamLeader" = false := by
  exact ⟨rfl, rfl⟩

/-- Claim C1, amended: the extraction step stores the parsed JSON
unchanged, so a key absent from the model response stays absent from the
stored `ExtractedReport`.  The `"N/A"` / empty-sequence defaulting happens
per read in the rendering code instead: a missing scalar field displays as
`"N/A"` and a missing list field as the empty list, via `dict.get`
defaults. -/
theorem claim_C1_theorem (st : AuditResult) (fields : List (String × PyVal))
    (ev k : String) (h : List.lookup k fields = none) :
    (run_audit st (.ok (.obj fields)) (.ok ev)).extracted_data = some (.obj fields) ∧
    PyVal.hasKey (.obj fields) k = false ∧
    display_scalar (.obj fields) k = .ok (.str "N/A") ∧
    display_list (.obj fields) k = .ok (.list []) := by
  refine ⟨rfl, ?_, ?_, ?_⟩
  · simp [PyVal.hasKey, h]
  · simp [display_scalar, pyGet, h]
  · simp [display_list, pyGet, h]

theorem claim_C1_witness :
    (run_audit ⟨none, none, none, none⟩ (.ok (.obj [])) (.ok "eval md")).extracted_data
        = some (.obj []) ∧
    PyVal.hasKey (.obj []) "D1_TeamLeader" = false ∧
    display_scalar (.obj []) "D1_TeamLeader" = .ok (.str "N/A") ∧
    display_list (.obj []) "D1_TeamLeader" = .ok (.list []) :=
  claim_C1_theorem ⟨none, none, none, none⟩ [] "eval md" "D1_TeamLeader" rfl

/-- Claim C7: translating to the native/default language returns the
input text unchanged and issues zero requests to the capability
(given a configured API key; a missing key is the separate
configuration-error path). -/
theorem claim_C7_theorem (text api_key : String)
    (llm : String → Except String String) (hk : ¬ api_key = "") :
    translate_report text "中文 (默认)" api_key llm = ((some text, none), 0) := by
  unfold translate_report
  rw [if_neg hk, if_pos rfl]

theorem claim_C7_witness :
    translate_report "# 8D Report body" "中文 (默认)" "sk-123"
        (fun _ => .error "network down") = ((some "# 8D Report body", none), 0) :=
  claim_C7_theorem "# 8D Report body" "sk-123" (fun _ => .error "network down")
    (by decide)

/-! ### The delimiter re-split protocol

`src/app.py` line 887: `translated_content.split('\n\n***AI_EVAL_SEP***\n\n', 1)`.
Strings are handled as `List Char`; `leadsWith p l` is Python's
"`l` starts with `p`", `findOcc` locates the leftmost occurrence of the
separator (what `str.split(sep, 1)` splits on), and `occursAt sep text i`
says the separator occurs at index `i`. -/

def leadsWith : List Char → List Char → Bool
  | [], _ => true
  | _ :: _, [] => false
  | a :: as, b :: bs => a == b && leadsWith as bs

/-- Index of the leftmost occurrence of `sep` in `text`, if any. -/
def findOcc (sep : List Char) : List Char → Option Nat
  | [] => if leadsWith sep [] then some 0 else none
  | c :: rest =>
    if leadsWith sep (c :: rest) then some 0
    else (findOcc sep rest).map (· + 1)

/-- `sep` occurs in `text` starting at index `i`. -/
def occursAt (sep text : List Char) (i : Nat) : Prop :=
  leadsWith sep (List.drop i text) = true

instance (sep text : List Char) (i : Nat) : Decidable (occursAt sep text i) := by
  unfold occursAt; exact inferInstance

/-- Number of indices at which `sep` occurs in `text`. -/
def countPos (sep : List Char) : List Char → Nat
  | [] => 0
  | c :: rest => (if leadsWith sep (c :: rest) then 1 else 0) + countPos sep rest

/-- Python `text.split(sep, 1)` for a separator that is a fixed nonempty
literal: one part when the separator is absent, otherwise the part before
the leftmost occurrence and everything after it. -/
def pySplitOnce (sep text : List Char) : List (List Char) :=
  match findOcc sep text with
  | none => [text]
  | some i => [text.take i, text.drop (i + sep.length)]

/-- The sentinel delimiter (`src/app.py` lines 875, 887). -/
def SEP : List Char := "\n\n***AI_EVAL_SEP***\n\n".toList

lemma SEP_ne_nil : SEP ≠ [] := by decide

lemma leadsWith_exists {p l : List Char} (h : leadsWith p l = true) :
    ∃ r, l = p ++ r := by
  induction p generalizing l with
  | nil => exact ⟨l, rfl⟩
  | cons a as ih =>
    cases l with
    | nil => simp [leadsWith] at h
    | cons b bs =>
      simp only [leadsWith, Bool.and_eq_true, beq_iff_eq] at h
      obtain ⟨hab, h2⟩ := h
      obtain ⟨r, hr⟩ := ih h2
      exact ⟨r, by simp [hab, hr]⟩

lemma leadsWith_take {p : List Char} :
    ∀ {k : Nat} {w : List Char}, leadsWith p (List.take k w) = true →
      leadsWith p w = true ∧ p.length ≤ k := by
  induction p with
  | nil => intro k w _; exact ⟨rfl, Nat.zero_le k⟩
  | cons a as ih =>
    intro k w h
    cases k with
    | zero => simp [leadsWith] at h
    | succ k =>
      cases w with
      | nil => simp [leadsWith] at h
      | cons b bs =>
        rw [List.take_succ_cons] at h
        simp only [leadsWith, Bool.and_eq_true, beq_iff_eq] at h
        obtain ⟨hab, h2⟩ := h
        obtain ⟨h3, h4⟩ := ih h2
        refine ⟨?_, Nat.succ_le_succ h4⟩
        simp [leadsWith, hab, h3]

lemma occursAt_drop (sep text : List Char) (n r : Nat) :
    occursAt sep (List.drop n text) r ↔ occursAt sep text (n + r) := by
  unfold occursAt
  rw [List.drop_drop]

lemma occursAt_take {sep text : List Char} {q n : Nat} (hs : sep ≠ [])
    (h : occursAt sep (List.take n text) q) :
    occursAt sep text q ∧ q + sep.length ≤ n := by
  unfold occursAt at *
  rw [List.drop_take] at h
  obtain ⟨h1, h2⟩ := leadsWith_take h
  have hpos : 0 < sep.length := List.length_pos.mpr hs
  exact ⟨h1, by omega⟩

lemma findOcc_some {sep text : List Char} {i : Nat}
    (h : findOcc sep text = some i) :
    occursAt sep text i ∧ ∀ j, j < i → ¬ occursAt sep text j := by
  induction text generalizing i with
  | nil =>
    simp only [findOcc] at h
    split at h
    · next hp =>
        cases h
        exact ⟨hp, by omega⟩
    · exact absurd h (by simp)
  | cons c rest ih =>
    simp only [findOcc] at h
    split at h
    · next hp =>
        cases h
        exact ⟨hp, by omega⟩
    · next hp =>
        cases hm : findOcc sep rest with
        | none => rw [hm] at h; simp at h
        | some i0 =>
          rw [hm] at h
          simp only [Option.map_some', Option.some.injEq] at h
          obtain ⟨h1, h2⟩ := ih hm
          subst h
          refine ⟨h1, ?_⟩
          intro j hj
          cases j with
          | zero => exact fun hc => hp hc
          | succ j0 => exact fun hc => h2 j0 (by omega) hc

lemma findOcc_none {sep text : List Char} (h : findOcc sep text = none) :
    ∀ j, ¬ occursAt sep text j := by
  induction text with
  | nil =>
    simp only [findOcc] at h
    split at h
    · exact absurd h (by simp)
    · next hp =>
        intro j hc
        apply hp
        unfold occursAt at hc
        rw [List.drop_nil] at hc
        exact hc
  | cons c rest ih =>
    simp only [findOcc] at h
    split at h
    · exact absurd h (by simp)
    · next hp =>
        have hr : findOcc sep rest = none := by
          cases hm : findOcc sep rest with
          | none => rfl
          | some i0 => rw [hm] at h; simp at h
        intro j
        cases j with
        | zero => exact fun hc => hp hc
        | succ j0 => exact fun hc => ih hr j0 hc

lemma occursAt_findOcc {sep text : List Char} {i : Nat}
    (h : occursAt sep text i) : ∃ j, findOcc sep text = some j := by
  cases hm : findOcc sep text with
  | none => exact absurd h (findOcc_none hm i)
  | some j => exact ⟨j, rfl⟩

lemma occursAt_decomp {sep text : List Char} {i : Nat}
    (h : occursAt sep text i) :
    text = List.take i text ++ sep ++ List.drop (i + sep.length) text := by
  unfold occursAt at h
  obtain ⟨r, hr⟩ := leadsWith_exists h
  have h2 : List.drop (i + sep.length) text = r := by
    rw [← List.drop_drop, hr]
    exact List.drop_left sep r
  conv_lhs => rw [← List.take_append_drop i text]
  rw [hr, h2, List.append_assoc]

lemma countPos_eq_zero {sep text : List Char} (hs : sep ≠ []) :
    countPos sep text = 0 ↔ ∀ i, ¬ occursAt sep text i := by
  induction text with
  | nil =>
    simp only [countPos, true_iff]
    intro i hc
    unfold occursAt at hc
    rw [List.drop_nil] at hc
    cases sep with
    | nil => exact hs rfl
    | cons a as => simp [leadsWith] at hc
  | cons c rest ih =>
    constructor
    · intro h i
      by_cases hp : leadsWith sep (c :: rest) = true
      · simp only [countPos, if_pos hp] at h; omega
      · simp only [countPos, if_neg hp] at h
        cases i with
        | zero => exact fun hc => hp hc
        | succ j => exact (ih.mp (by omega)) j
    · intro h
      have hp : ¬ leadsWith sep (c :: rest) = true := h 0
      have hrest : ∀ i, ¬ occursAt sep rest i := fun i hc => h (i + 1) hc
      simp only [countPos, if_neg hp, ih.mpr hrest]

lemma occursAt_countPos_pos {sep text : List Char} {i : Nat} (hs : sep ≠ [])
    (h : occursAt sep text i) : 1 ≤ countPos sep text := by
  induction text generalizing i with
  | nil =>
    unfold occursAt at h
    rw [List.drop_nil] at h
    cases sep with
    | nil => exact absurd rfl hs
    | cons a as => simp [leadsWith] at h
  | cons c rest ih =>
    cases i with
    | zero =>
      have hp : leadsWith sep (c :: rest) = true := h
      simp only [countPos, if_pos hp]
      omega
    | succ j =>
      have := ih (i := j) h
      simp only [countPos]
      omega

lemma two_occ_le_countPos {sep text : List Char} {i j : Nat} (hs : sep ≠ [])
    (hi : occursAt sep text i) (hj : occursAt sep text j) (hij : i < j) :
    2 ≤ countPos sep text := by
  induction text generalizing i j with
  | nil =>
    unfold occursAt at hj
    rw [List.drop_nil] at hj
    cases sep with
    | nil => exact absurd rfl hs
    | cons a as => simp [leadsWith] at hj
  | cons c rest ih =>
    cases i with
    | zero =>
      cases j with
      | zero => omega
      | succ j0 =>
        have hp : leadsWith sep (c :: rest) = true := hi
        have h1 : 1 ≤ countPos sep rest := occursAt_countPos_pos hs (i := j0) hj
        simp only [countPos, if_pos hp]
        omega
    | succ i0 =>
      cases j with
      | zero => omega
      | succ j0 =>
        have h2 : 2 ≤ countPos sep rest := ih (i := i0) (j := j0) hi hj (by omega)
        simp only [countPos]
        omega

/-! ### The audit translation action, `src/app.py` lines 861-895 -/

/-- Storing a translation result (lines 886-895): re-split on the
sentinel; two parts store the pair, otherwise the whole text is kept as a
merged blob in `translated_eval` and the structure-lost warning (the
returned flag) is shown. -/
def audit_store_translation (st : AuditResult) (translated_content : String) :
    AuditResult × Bool :=
  let parts := pySplitOnce SEP translated_content.toList
  if parts.length = 2 then
    ({ st with translated_data := some (String.mk (parts.getD 0 [])),
               translated_eval := some (String.mk (parts.getD 1 [])) }, false)
  else
    ({ st with translated_data := none, translated_eval := some translated_content }, true)

/-- The whole "✨ 翻译审计报告" button handler (lines 861-895): missing key
changes nothing; a translation error resets both translated fields to
`None` (lines 883-884); a successful translation is re-split and stored.
The returned flag is the structure-lost warning of line 894. -/
def audit_translate_action (st : AuditResult)
    (api_key full_content target_lang : String)
    (llm : String → Except String String) : AuditResult × Bool :=
  if api_key = "" then (st, false)
  else
    match (translate_report full_content target_lang api_key llm).1 with
    | (_, some _) => ({ st with translated_data := none, translated_eval := none }, false)
    | (some tc, none) => audit_store_translation st tc
    | (none, none) => (st, false)

/-! ## Claims C3, C8, C9 -/

/-- Claim C3, counterexample: commit an audit result, then a successful
translation (so a translated pair is stored), then run a translation that
fails.  The failing action resets both previously committed translated
fields to absent — prior successful work is lost, so the claim is false. -/
theorem claim_C3_counterexample :
    (let st1 := run_audit ⟨none, none, none, none⟩
        (.ok (.obj [("D1_TeamLeader", PyVal.str "Alice")])) (.ok "eval md")
     let st2 := (audit_translate_action st1 "sk-key" "src text" "English (英文)"
        (fun _ => .ok "Data\n\n***AI_EVAL_SEP***\n\nEval")).1
     let st3 := (audit_translate_action st2 "sk-key" "src text" "English (英文)"
        (fun _ => .error "boom")).1
     st2.translated_data = some "Data" ∧ st2.translated_eval = some "Eval" ∧
       st3.translated_data = none ∧ st3.translated_eval = none) := by
  exact ⟨rfl, rfl, rfl, rfl⟩

/-- Claim C3, amended: when a translation run fails, the previously
committed `extracted_data`/`evaluation_markdown` pair is left untouched,
but both translated fields are reset to absent — a previously stored
translated pair is discarded rather than preserved. -/
theorem claim_C3_theorem (st : AuditResult) (key content lang : String)
    (llm : String → Except String String) (hk : ¬ key = "") (e : String)
    (herr : (translate_report content lang key llm).1.2 = some e) :
    audit_translate_action st key content lang llm =
      ({ st with translated_data := none, translated_eval := none }, false) := by
  unfold audit_translate_action
  rw [if_neg hk]
  rcases hm : (translate_report content lang key llm).1 with ⟨c, err⟩
  rw [hm] at herr
  simp only at herr
  subst herr
  cases c <;> rfl

theorem claim_C3_witness :
    audit_translate_action
        ⟨some (.obj []), some "eval md", some "prev data", some "prev eval"⟩
        "sk-key" "src text" "English (英文)" (fun _ => .error "boom") =
      (⟨some (.obj []), some "eval md", none, none⟩, false) :=
  claim_C3_theorem ⟨some (.obj []), some "eval md", some "prev data", some "prev eval"⟩
    "sk-key" "src text" "English (英文)" (fun _ => .error "boom")
    (by decide) "翻译调用出错: boom" rfl

/-- Claim C8: re-splitting the translated text on the exact delimiter —
with exactly one occurrence the stored pair is exactly the part before and
the part after the delimiter (no delimiter fragment remains in either
part, and the warning is not shown); with zero occurrences the whole text
is stored as a single merged blob and the structure-lost flag is set. -/
theorem claim_C8_theorem (st : AuditResult) (t : String) :
    (countPos SEP t.toList = 1 →
      ∃ a b, pySplitOnce SEP t.toList = [a, b] ∧ t.toList = a ++ SEP ++ b ∧
        (∀ q, ¬ occursAt SEP a q) ∧ (∀ q, ¬ occursAt SEP b q) ∧
        audit_store_translation st t =
          ({ st with translated_data := some (String.mk a),
                     translated_eval := some (String.mk b) }, false)) ∧
    (countPos SEP t.toList = 0 →
      pySplitOnce SEP t.toList = [t.toList] ∧
      audit_store_translation st t =
        ({ st with translated_data := none, translated_eval := some t }, true)) := by
  constructor
  · intro h1
    have hex : ∃ i, occursAt SEP t.toList i := by
      by_contra hno
      push_neg at hno
      have := (countPos_eq_zero SEP_ne_nil).mpr hno
      omega
    obtain ⟨i0, hi0⟩ := hex
    obtain ⟨j, hj⟩ := occursAt_findOcc hi0
    obtain ⟨hjocc, hjmin⟩ := findOcc_some hj
    have hps : pySplitOnce SEP t.toList =
        [List.take j t.toList, List.drop (j + SEP.length) t.toList] := by
      unfold pySplitOnce; rw [hj]
    have hsepPos : 0 < SEP.length := List.length_pos.mpr SEP_ne_nil
    refine ⟨List.take j t.toList, List.drop (j + SEP.length) t.toList, hps,
      occursAt_decomp hjocc, ?_, ?_, ?_⟩
    · intro q hq
      obtain ⟨hq1, hq2⟩ := occursAt_take SEP_ne_nil hq
      exact hjmin q (by omega) hq1
    · intro q hq
      rw [occursAt_drop] at hq
      have h2 : 2 ≤ countPos SEP t.toList :=
        two_occ_le_countPos SEP_ne_nil hjocc hq (by omega)
      omega
    · simp only [audit_store_translation, hps]
      rfl
  · intro h0
    have hno : ∀ i, ¬ occursAt SEP t.toList i := (countPos_eq_zero SEP_ne_nil).mp h0
    have hfn : findOcc SEP t.toList = none := by
      cases hm : findOcc SEP t.toList with
      | none => rfl
      | some i1 => exact absurd (findOcc_some hm).1 (hno i1)
    have hps : pySplitOnce SEP t.toList = [t.toList] := by
      unfold pySplitOnce; rw [hfn]
    refine ⟨hps, ?_⟩
    simp only [audit_store_translation, hps]
    rfl

theorem claim_C8_witness :
    ∃ a b,
      pySplitOnce SEP ("A\n\n***AI_EVAL_SEP***\n\nB".toList) = [a, b] ∧
      "A\n\n***AI_EVAL_SEP***\n\nB".toList = a ++ SEP ++ b ∧
      (∀ q, ¬ occursAt SEP a q) ∧ (∀ q, ¬ occursAt SEP b q) ∧
      audit_store_translation ⟨none, none, none, none⟩ "A\n\n***AI_EVAL_SEP***\n\nB" =
        ({ (⟨none, none, none, none⟩ : AuditResult) with
             translated_data := some (String.mk a),
             translated_eval := some (String.mk b) }, false) :=
  (claim_C8_theorem ⟨none, none, none, none⟩ "A\n\n***AI_EVAL_SEP***\n\nB").1 (by decide)

/-- Claim C9: when the delimiter occurs two or more times
(non-overlapping occurrences at `p` and `q`), the `maxsplit=1` re-split
still yields exactly two parts stored as a successful split — the text
before the first occurrence and everything after it, each remaining
occurrence surviving verbatim inside `translated_eval` — and the
structure-lost warning is not triggered. -/
theorem claim_C9_theorem (st : AuditResult) (t : String) (p q : Nat)
    (hp : occursAt SEP t.toList p) (hq : occursAt SEP t.toList q)
    (hpq : p + SEP.length ≤ q) :
    ∃ i, findOcc SEP t.toList = some i ∧ i ≤ p ∧
      pySplitOnce SEP t.toList =
        [List.take i t.toList, List.drop (i + SEP.length) t.toList] ∧
      audit_store_translation st t =
        ({ st with translated_data := some (String.mk (List.take i t.toList)),
                   translated_eval := some (String.mk (List.drop (i + SEP.length) t.toList)) },
          false) ∧
      (∀ r, i + SEP.length ≤ r → occursAt SEP t.toList r →
        occursAt SEP (List.drop (i + SEP.length) t.toList) (r - (i + SEP.length))) ∧
      (∃ r, occursAt SEP (List.drop (i + SEP.length) t.toList) r) := by
  obtain ⟨i, hi⟩ := occursAt_findOcc hp
  obtain ⟨hiocc, himin⟩ := findOcc_some hi
  have hip : i ≤ p := by
    by_contra hgt
    exact himin p (by omega) hp
  have hdropOcc : ∀ r, i + SEP.length ≤ r → occursAt SEP t.toList r →
      occursAt SEP (List.drop (i + SEP.length) t.toList) (r - (i + SEP.length)) := by
    intro r hr hocc
    rw [occursAt_drop]
    have heq : i + SEP.length + (r - (i + SEP.length)) = r := by omega
    rw [heq]
    exact hocc
  have hps : pySplitOnce SEP t.toList =
      [List.take i t.toList, List.drop (i + SEP.length) t.toList] := by
    unfold pySplitOnce; rw [hi]
  refine ⟨i, hi, hip, hps, ?_, hdropOcc, ?_⟩
  · simp only [audit_store_translation, hps]
    rfl
  · exact ⟨q - (i + SEP.length), hdropOcc q (by omega) hq⟩

theorem claim_C9_witness :
    ∃ i, findOcc SEP ("A\n\n***AI_EVAL_SEP***\n\nB\n\n***AI_EVAL_SEP***\n\nC".toList) = some i ∧
      i ≤ 1 ∧
      pySplitOnce SEP ("A\n\n***AI_EVAL_SEP***\n\nB\n\n***AI_EVAL_SEP***\n\nC".toList) =
        [List.take i ("A\n\n***AI_EVAL_SEP***\n\nB\n\n***AI_EVAL_SEP***\n\nC".toList),
         List.drop (i + SEP.length) ("A\n\n***AI_EVAL_SEP***\n\nB\n\n***AI_EVAL_SEP***\n\nC".toList)] ∧
      audit_store_translation ⟨none, none, none, none⟩
          "A\n\n***AI_EVAL_SEP***\n\nB\n\n***AI_EVAL_SEP***\n\nC" =
        ({ (⟨none, none, none, none⟩ : AuditResult) with
             translated_data := some (String.mk (List.take i
               ("A\n\n***AI_EVAL_SEP***\n\nB\n\n***AI_EVAL_SEP***\n\nC".toList))),
             translated_eval := some (String.mk (List.drop (i + SEP.length)
               ("A\n\n***AI_EVAL_SEP***\n\nB\n\n***AI_EVAL_SEP***\n\nC".toList))) }, false) ∧
      (∀ r, i + SEP.length ≤ r →
        occursAt SEP ("A\n\n***AI_EVAL_SEP***\n\nB\n\n***AI_EVAL_SEP***\n\nC".toList) r →
        occursAt SEP (List.drop (i + SEP.length)
          ("A\n\n***AI_EVAL_SEP***\n\nB\n\n***AI_EVAL_SEP***\n\nC".toList)) (r - (i + SEP.length))) ∧
      (∃ r, occursAt SEP (List.drop (i + SEP.length)
        ("A\n\n***AI_EVAL_SEP***\n\nB\n\n***AI_EVAL_SEP***\n\nC".toList)) r) :=
  claim_C9_theorem ⟨none, none, none, none⟩
    "A\n\n***AI_EVAL_SEP***\n\nB\n\n***AI_EVAL_SEP***\n\nC" 1 23
    (by decide) (by decide) (by decide)

/-! ### The action-item status resolver, `src/app.py` lines 337-353

`datetime.strptime(s, '%Y-%m-%d')` accepts a 4-digit year, 1-2 digit month
and day joined by `-`, and then validates the calendar date (month 1-12,
day within the month, year at least 1); any other input raises and lands in
the `except` branch.  `date.today()` is passed in explicitly as `today`;
Python date comparison is lexicographic on (year, month, day) and
`timedelta(days=7)` advances the calendar seven successive days. -/

structure Date where
  year : Nat
  month : Nat
  day : Nat
deriving DecidableEq

def isLeap (y : Nat) : Bool :=
  (y % 4 == 0 && y % 100 != 0) || y % 400 == 0

def daysInMonth (y m : Nat) : Nat :=
  if m = 2 then (if isLeap y then 29 else 28)
  else if m = 4 ∨ m = 6 ∨ m = 9 ∨ m = 11 then 30
  else 31

/-- Split a character list on `-` (the shape `%Y-%m-%d` imposes). -/
def splitDash : List Char → List Char → List (List Char)
  | acc, [] => [acc.reverse]
  | acc, c :: rest =>
    if c = '-' then acc.reverse :: splitDash [] rest
    else splitDash (c :: acc) rest

def digitsToNat (l : List Char) : Nat :=
  l.foldl (fun n c => n * 10 + (c.toNat - 48)) 0

/-- `datetime.strptime(s, '%Y-%m-%d').date()` as a partial function:
`none` models the `ValueError` that the caller's bare `except` catches. -/
def parseDate (s : String) : Option Date :=
  match splitDash [] s.toList with
  | [ys, ms, ds] =>
    if ys.length = 4 ∧ ys.all Char.isDigit = true
        ∧ 1 ≤ ms.length ∧ ms.length ≤ 2 ∧ ms.all Char.isDigit = true
        ∧ 1 ≤ ds.length ∧ ds.length ≤ 2 ∧ ds.all Char.isDigit = true then
      let y := digitsToNat ys
      let m := digitsToNat ms
      let d := digitsToNat ds
      if 1 ≤ y ∧ 1 ≤ m ∧ m ≤ 12 ∧ 1 ≤ d ∧ d ≤ daysInMonth y m then
        some ⟨y, m, d⟩
      else none
    else none
  | _ => none

/-- Python `date <` (lexicographic on year, month, day). -/
def dateLt (a b : Date) : Prop :=
  a.year < b.year ∨ (a.year = b.year ∧
    (a.month < b.month ∨ (a.month = b.month ∧ a.day < b.day)))

/-- Python `date <=`. -/
def dateLe (a b : Date) : Prop :=
  a.year < b.year ∨ (a.year = b.year ∧
    (a.month < b.month ∨ (a.month = b.month ∧ a.day ≤ b.day)))

instance (a b : Date) : Decidable (dateLt a b) := by
  unfold dateLt; exact inferInstance

instance (a b : Date) : Decidable (dateLe a b) := by
  unfold dateLe; exact inferInstance

/-- The calendar successor of a date. -/
def nextDay (d : Date) : Date :=
  if d.day < daysInMonth d.year d.month then ⟨d.year, d.month, d.day + 1⟩
  else if d.month < 12 then ⟨d.year, d.month + 1, 1⟩
  else ⟨d.year + 1, 1, 1⟩

/-- `d + timedelta(days=n)`. -/
def addDays (d : Date) : Nat → Date
  | 0 => d
  | n + 1 => nextDay (addDays d n)

/-- `get_action_status(action_date_str, current_status)` with the
wall-clock `date.today()` made an explicit argument `today`
(`src/app.py` lines 337-353). -/
def get_action_status (action_date_str current_status : String)
    (today : Date) : String × String :=
  if current_status = "Completed" then ("Completed", "已完成")
  else
    match parseDate action_date_str with
    | none => ("Open", "日期未设置")
    | some action_date =>
      if dateLt action_date today then ("Overdue", "逾期/待验证")
      else if dateLe action_date (addDays today 7) then ("DueSoon", "临期")
      else ("Open", "进行中")

lemma dateLt_nextDay (d : Date) : dateLt d (nextDay d) := by
  unfold nextDay
  split
  · right
    exact ⟨rfl, Or.inr ⟨rfl, Nat.lt_succ_self d.day⟩⟩
  · split
    · right
      exact ⟨rfl, Or.inl (Nat.lt_succ_self d.month)⟩
    · left
      exact Nat.lt_succ_self d.year

lemma dateLe_refl (d : Date) : dateLe d d := by
  unfold dateLe; omega

lemma dateLe_of_lt {a b : Date} (h : dateLt a b) : dateLe a b := by
  unfold dateLt dateLe at *; omega

lemma dateLe_trans {a b c : Date} (h1 : dateLe a b) (h2 : dateLe b c) :
    dateLe a c := by
  unfold dateLe at *; omega

lemma not_dateLt_of_le {a b : Date} (h : dateLe a b) : ¬ dateLt b a := by
  unfold dateLt dateLe at *; omega

lemma dateLe_addDays (d : Date) (n : Nat) : dateLe d (addDays d n) := by
  induction n with
  | zero => exact dateLe_refl d
  | succ n ih =>
    exact dateLe_trans ih (dateLe_of_lt (dateLt_nextDay (addDays d n)))

/-! ## Claims C4, C5 -/

/-- Claim C4: with stored status `Completed` the resolver returns the
completed pair for every due-date string (parseable or not) and every
current date — completion is terminal and date-independent. -/
theorem claim_C4_theorem (s : String) (today : Date) :
    get_action_status s "Completed" today = ("Completed", "已完成") := by
  unfold get_action_status
  rw [if_pos rfl]

/-- Claim C5: with a non-`Completed` stored status, an unparseable
due-date string yields `(Open, 日期未设置)` (the resolver is total, it
never raises); a parsed date strictly before today yields `Overdue`;
a date between today and today+7 inclusive (so also today itself) yields
`DueSoon`; any later date yields `(Open, 进行中)`. -/
theorem claim_C5_theorem (s status : String) (today : Date)
    (hstat : ¬ status = "Completed") :
    (parseDate s = none →
      get_action_status s status today = ("Open", "日期未设置")) ∧
    (∀ d, parseDate s = some d →
      (dateLt d today →
        get_action_status s status today = ("Overdue", "逾期/待验证")) ∧
      (dateLe today d → dateLe d (addDays today 7) →
        get_action_status s status today = ("DueSoon", "临期")) ∧
      (dateLt (addDays today 7) d →
        get_action_status s status today = ("Open", "进行中"))) := by
  constructor
  · intro hn
    unfold get_action_status
    rw [if_neg hstat, hn]
  · intro d hd
    refine ⟨?_, ?_, ?_⟩
    · intro hlt
      simp only [get_action_status, if_neg hstat, hd]
      rw [if_pos hlt]
    · intro h1 h2
      have hnlt : ¬ dateLt d today := not_dateLt_of_le h1
      simp only [get_action_status, if_neg hstat, hd]
      rw [if_neg hnlt, if_pos h2]
    · intro hgt
      have h7 : dateLe today (addDays today 7) := dateLe_addDays today 7
      have hnlt : ¬ dateLt d today := by
        intro hlt
        unfold dateLt dateLe at *
        omega
      have hnle : ¬ dateLe d (addDays today 7) := by
        intro hle
        unfold dateLt dateLe at *
        omega
      simp only [get_action_status, if_neg hstat, hd]
      rw [if_neg hnlt, if_neg hnle]

theorem claim_C5_witness :
    get_action_status "2024-06-15" "Open" ⟨2024, 6, 10⟩ = ("DueSoon", "临期") :=
  (( claim_C5_theorem "2024-06-15" "Open" ⟨2024, 6, 10⟩ (by decide)).2
    ⟨2024, 6, 15⟩ (by decide)).2.1 (by decide) (by decide)

/-! ### The D4 five-whys state and the adopt-AI-suggestion handler

`st.session_state.data['d4']` (`src/app.py` line 322) and the
"⚡ 觉得不错，一键填入下方表格" button handler (lines 493-499). -/

structure AiFiveWhysResult where
  five_whys : List String
  root_cause : String
deriving DecidableEq

structure D4State where
  whys : List String
  root_cause : String
  ai_analysis : Option AiFiveWhysResult
deriving DecidableEq

/-- The adopt handler: `for i in range(5): if i < len(fw): whys[i] = fw[i]`,
then `root_cause` is overwritten wholesale and the pending suggestion is
cleared (set to `None`).  The per-slot final value of the loop is spelled
out position-wise; the handler only runs when a suggestion is pending. -/
def adopt_ai_suggestion (d4 : D4State) : D4State :=
  match d4.ai_analysis with
  | none => d4
  | some ai =>
    { whys := (List.range 5).map (fun i =>
        if i < ai.five_whys.length then ai.five_whys.getD i ""
        else d4.whys.getD i ""),
      root_cause := ai.root_cause,
      ai_analysis := none }

/-! ## Claim C6 -/

/-- Claim C6: adopting a pending suggestion whose `five_whys` has length
`k ≤ 5` overwrites exactly `whys[0..k-1]` positionally, leaves
`whys[k..4]` at their prior values, overwrites `root_cause` wholesale,
and clears the pending suggestion. -/
theorem claim_C6_theorem (d4 : D4State) (ai : AiFiveWhysResult)
    (hpend : d4.ai_analysis = some ai) (hlen : d4.whys.length = 5)
    (hk : ai.five_whys.length ≤ 5) :
    (adopt_ai_suggestion d4).whys.length = 5 ∧
    (∀ i, i < ai.five_whys.length →
      (adopt_ai_suggestion d4).whys.getD i "" = ai.five_whys.getD i "") ∧
    (∀ i, ai.five_whys.length ≤ i → i < 5 →
      (adopt_ai_suggestion d4).whys.getD i "" = d4.whys.getD i "") ∧
    (adopt_ai_suggestion d4).root_cause = ai.root_cause ∧
    (adopt_ai_suggestion d4).ai_analysis = none := by
  have hEq : adopt_ai_suggestion d4 =
      { whys := (List.range 5).map (fun i =>
          if i < ai.five_whys.length then ai.five_whys.getD i ""
          else d4.whys.getD i ""),
        root_cause := ai.root_cause, ai_analysis := none } := by
    unfold adopt_ai_suggestion
    rw [hpend]
  rw [hEq]
  refine ⟨by simp, ?_, ?_, rfl, rfl⟩
  · intro i hi
    have hi5 : i < 5 := by omega
    simp only [List.getD_eq_getElem?_getD, List.getElem?_map,
      List.getElem?_range hi5, Option.map_some', Option.getD_some]
    rw [if_pos hi]
  · intro i hge hi5
    simp only [List.getD_eq_getElem?_getD, List.getElem?_map,
      List.getElem?_range hi5, Option.map_some', Option.getD_some]
    rw [if_neg (by omega)]

theorem claim_C6_witness :
    (adopt_ai_suggestion ⟨["w1", "w2", "w3", "w4", "w5"], "old rc",
        some ⟨["a1", "a2", "a3"], "new rc"⟩⟩).whys.length = 5 ∧
    (∀ i, i < (["a1", "a2", "a3"] : List String).length →
      (adopt_ai_suggestion ⟨["w1", "w2", "w3", "w4", "w5"], "old rc",
          some ⟨["a1", "a2", "a3"], "new rc"⟩⟩).whys.getD i "" =
        (["a1", "a2", "a3"] : List String).getD i "") ∧
    (∀ i, (["a1", "a2", "a3"] : List String).length ≤ i → i < 5 →
      (adopt_ai_suggestion ⟨["w1", "w2", "w3", "w4", "w5"], "old rc",
          some ⟨["a1", "a2", "a3"], "new rc"⟩⟩).whys.getD i "" =
        (["w1", "w2", "w3", "w4", "w5"] : List String).getD i "") ∧
    (adopt_ai_suggestion ⟨["w1", "w2", "w3", "w4", "w5"], "old rc",
        some ⟨["a1", "a2", "a3"], "new rc"⟩⟩).root_cause = "new rc" ∧
    (adopt_ai_suggestion ⟨["w1", "w2", "w3", "w4", "w5"], "old rc",
        some ⟨["a1", "a2", "a3"], "new rc"⟩⟩).ai_analysis = none :=
  claim_C6_theorem ⟨["w1", "w2", "w3", "w4", "w5"], "old rc",
      some ⟨["a1", "a2", "a3"], "new rc"⟩⟩ ⟨["a1", "a2", "a3"], "new rc"⟩
    rfl rfl (by decide)

/-! ### The Word export, untranslated path, `src/app.py` lines 153-199

Only the fallible dictionary accesses are modelled; the `python-docx`
calls (`add_heading`, `add_paragraph`, `table.cell`) are treated as total.
The four core-row reads (lines 161-164), the two action loops calling
`item.get("action", "N/A")` on every iterated element (lines 173-178,
with defaults `["N/A"]`), and the D6/D7 reads (lines 182-183). -/

def PyVal.isObj : PyVal → Bool
  | .obj _ => true
  | _ => false

/-- The body of `for item in ...: item.get("action", "N/A")`. -/
def forItemsGetAction : List PyVal → Except String Unit
  | [] => .ok ()
  | item :: rest =>
    match pyGet item "action" (.str "N/A") with
    | .ok _ => forItemsGetAction rest
    | .error e => .error e

/-- `create_word_document(extracted_data, ..., is_translated=False)`:
the sequence of fallible accesses of the untranslated branch. -/
def create_word_document (extracted_data : PyVal) : Except String Unit :=
  (pyGet extracted_data "D1_TeamLeader" (.str "N/A")).bind (fun _ =>
  (pyGet extracted_data "D2_Problem" (.str "N/A")).bind (fun _ =>
  (pyGet extracted_data "D4_RootCause" (.str "N/A")).bind (fun _ =>
  (pyGet extracted_data "D8_Conclusion" (.str "N/A")).bind (fun _ =>
  (pyGet extracted_data "D3_ICA" (.list [.str "N/A"])).bind (fun d3 =>
  (pyIter d3).bind (fun items3 =>
  (forItemsGetAction items3).bind (fun _ =>
  (pyGet extracted_data "D5_Actions" (.list [.str "N/A"])).bind (fun d5 =>
  (pyIter d5).bind (fun items5 =>
  (forItemsGetAction items5).bind (fun _ =>
  (pyGet extracted_data "D6_Verification" (.str "N/A")).bind (fun _ =>
  (pyGet extracted_data "D7_Standardization" (.str "N/A")).bind (fun _ =>
  Except.ok ()))))))))))))

lemma pyGet_nonobj {x : PyVal} (h : x.isObj = false) (k : String)
    (dflt : PyVal) : pyGet x k dflt = .error "AttributeError" := by
  cases x <;> first | rfl | simp [PyVal.isObj] at h

lemma forItems_cons_obj {x : PyVal} (hx : x.isObj = true)
    (rest : List PyVal) :
    forItemsGetAction (x :: rest) = forItemsGetAction rest := by
  cases x <;> first | rfl | simp [PyVal.isObj] at hx

lemma forItems_cons_nonobj (x : PyVal) (hx : x.isObj = false)
    (rest : List PyVal) :
    forItemsGetAction (x :: rest) = .error "AttributeError" := by
  have h := pyGet_nonobj hx "action" (PyVal.str "N/A")
  simp [forItemsGetAction, h]

lemma forItemsGetAction_eq_ok (xs : List PyVal) :
    forItemsGetAction xs = .ok () ↔ ∀ x ∈ xs, x.isObj = true := by
  induction xs with
  | nil => simp [forItemsGetAction]
  | cons x rest ih =>
    by_cases hx : x.isObj = true
    · rw [forItems_cons_obj hx, ih]
      constructor
      · intro h y hy
        rcases List.mem_cons.mp hy with h1 | h2
        · subst h1; exact hx
        · exact h y h2
      · intro h y hy
        exact h y (List.mem_cons_of_mem _ hy)
    · have hxf : x.isObj = false := by simpa using hx
      rw [forItems_cons_nonobj x hxf]
      constructor
      · intro h
        exact Except.noConfusion h
      · intro h
        exact absurd (h x (List.mem_cons_self x rest)) (by simp [hxf])

lemma forItemsGetAction_error {xs : List PyVal}
    (h : ∃ x ∈ xs, x.isObj = false) :
    forItemsGetAction xs = .error "AttributeError" := by
  induction xs with
  | nil => simp at h
  | cons x rest ih =>
    obtain ⟨y, hy, hyf⟩ := h
    rcases List.mem_cons.mp hy with h1 | h2
    · subst h1
      exact forItems_cons_nonobj y hyf rest
    · by_cases hx : x.isObj = true
      · rw [forItems_cons_obj hx]
        exact ih ⟨y, h2, hyf⟩
      · exact forItems_cons_nonobj x (by simpa using hx) rest

/-- The export on a dict input, with the always-successful scalar reads
reduced away. -/
lemma create_word_document_obj (fields : List (String × PyVal)) :
    create_word_document (.obj fields) =
      (pyIter ((List.lookup "D3_ICA" fields).getD (.list [.str "N/A"]))).bind
        (fun items3 =>
      (forItemsGetAction items3).bind (fun _ =>
      (pyIter ((List.lookup "D5_Actions" fields).getD (.list [.str "N/A"]))).bind
        (fun items5 =>
      (forItemsGetAction items5).bind (fun _ => Except.ok ())))) := by
  rfl

/-! ## Claim C10 -/

/-- Claim C10: in the untranslated Word-export path, an absent `D3_ICA`
or `D5_Actions` key (whose default `["N/A"]` makes the loop call
`.get` on the string `"N/A"`), or any string element inside either list,
makes the export raise `AttributeError`; the export succeeds only when
both keys are present and every iterated element is a mapping. -/
theorem claim_C10_theorem (fields : List (String × PyVal)) :
    (List.lookup "D3_ICA" fields = none →
      create_word_document (.obj fields) = .error "AttributeError") ∧
    (∀ xs s, List.lookup "D3_ICA" fields = some (.list xs) →
      PyVal.str s ∈ xs →
      create_word_document (.obj fields) = .error "AttributeError") ∧
    (∀ xs, List.lookup "D3_ICA" fields = some (.list xs) →
      (∀ x ∈ xs, x.isObj = true) →
      List.lookup "D5_Actions" fields = none →
      create_word_document (.obj fields) = .error "AttributeError") ∧
    (∀ xs ys s, List.lookup "D3_ICA" fields = some (.list xs) →
      (∀ x ∈ xs, x.isObj = true) →
      List.lookup "D5_Actions" fields = some (.list ys) →
      PyVal.str s ∈ ys →
      create_word_document (.obj fields) = .error "AttributeError") ∧
    (create_word_document (.obj fields) = .ok () →
      (List.lookup "D3_ICA" fields).isSome ∧
      (List.lookup "D5_Actions" fields).isSome ∧
      (∀ v xs, List.lookup "D3_ICA" fields = some v → pyIter v = .ok xs →
        ∀ x ∈ xs, x.isObj = true) ∧
      (∀ v ys, List.lookup "D5_Actions" fields = some v → pyIter v = .ok ys →
        ∀ y ∈ ys, y.isObj = true)) := by
  have hNA : forItemsGetAction [PyVal.str "N/A"] = .error "AttributeError" :=
    forItems_cons_nonobj (PyVal.str "N/A") rfl []
  refine ⟨?_, ?_, ?_, ?_, ?_⟩
  · intro h3
    rw [create_word_document_obj, h3]
    simp [pyIter, hNA, Except.bind]
  · intro xs s h3 hs
    rw [create_word_document_obj, h3]
    have he : forItemsGetAction xs = .error "AttributeError" :=
      forItemsGetAction_error ⟨.str s, hs, rfl⟩
    simp [pyIter, he, Except.bind]
  · intro xs h3 hall h5
    rw [create_word_document_obj, h3, h5]
    have hok : forItemsGetAction xs = .ok () :=
      (forItemsGetAction_eq_ok xs).mpr hall
    simp [pyIter, hok, hNA, Except.bind]
  · intro xs ys s h3 hall h5 hs
    rw [create_word_document_obj, h3, h5]
    have hok : forItemsGetAction xs = .ok () :=
      (forItemsGetAction_eq_ok xs).mpr hall
    have he : forItemsGetAction ys = .error "AttributeError" :=
      forItemsGetAction_error ⟨.str s, hs, rfl⟩
    simp [pyIter, hok, he, Except.bind]
  · intro h
    rw [create_word_document_obj] at h
    cases h3 : List.lookup "D3_ICA" fields with
    | none =>
      rw [h3] at h
      simp [pyIter, hNA, Except.bind] at h
    | some v3 =>
      rw [h3] at h
      simp only [Option.getD_some] at h
      cases hI3 : pyIter v3 with
      | error e =>
        rw [hI3] at h
        simp [Except.bind] at h
      | ok items3 =>
        rw [hI3] at h
        simp only [Except.bind] at h
        cases hf3 : forItemsGetAction items3 with
        | error e =>
          rw [hf3] at h
          simp [Except.bind] at h
        | ok u =>
          cases u
          rw [hf3] at h
          simp only [Except.bind] at h
          cases h5 : List.lookup "D5_Actions" fields with
          | none =>
            rw [h5] at h
            simp [pyIter, hNA, Except.bind] at h
          | some v5 =>
            rw [h5] at h
            simp only [Option.getD_some] at h
            cases hI5 : pyIter v5 with
            | error e =>
              rw [hI5] at h
              simp [Except.bind] at h
            | ok items5 =>
              rw [hI5] at h
              simp only [Except.bind] at h
              cases hf5 : forItemsGetAction items5 with
              | error e =>
                rw [hf5] at h
                simp [Except.bind] at h
              | ok u5 =>
                cases u5
                refine ⟨by simp [h3], by simp [h5], ?_, ?_⟩
                · intro v xs hv hx
                  injection hv with hv
                  subst hv
                  rw [hI3] at hx
                  injection hx with hx
                  subst hx
                  exact (forItemsGetAction_eq_ok items3).mp hf3
                · intro v ys hv hy
                  injection hv with hv
                  subst hv
                  rw [hI5] at hy
                  injection hy with hy
                  subst hy
                  exact (forItemsGetAction_eq_ok items5).mp hf5

theorem claim_C10_witness :
    create_word_document (.obj []) = .error "AttributeError" :=
  (claim_C10_theorem []).1 rfl
